import Mathlib

/-
  Verification development for the `countergather` prototype
  (ctb/2022-sourmash-rust-countergather, src/main.rs).

  The Rust program greedily decomposes a query MinHash sketch against a list
  of candidate sketches ("gather"): it repeatedly selects the best-containment
  candidate from a `BinaryHeap`, subtracts its hashes from the query, and
  recomputes all containments.

  Shallow embedding conventions:
  * machine integers (`u64`, `u32`) are modelled as `Nat`; none of the
    arithmetic here can overflow `u64` (hash values are bounded by
    `2^64 - 1` and cardinalities of finite hash sets are far below it);
  * hash sets (`mins` of a `KmerMinHash`) are `Finset ℕ`;
  * fallible Rust calls (`Result`) are `Except`; a Rust `unwrap()` on an
    error and a propagated `?` error are distinguished `RunError`s;
  * file I/O is abstracted: a file that can be read and parsed is
    `some content`, an unreadable/unparseable one is `none`;
  * the sourmash library (an external dependency, not part of this
    repository) is modelled from its documented behaviour, as specified in
    the spec's "required collaborator capability" list: `count_common` is
    intersection cardinality, `remove_from` is set difference,
    `downsample` keeps exactly the hashes below the cutoff, after the
    compatibility checks the library performs;
  * `rayon` parallel pipelines (`par_iter().filter_map().collect()`) are
    modelled as order-preserving sequential `filterMap`, which is rayon's
    documented behaviour for ordered collects; a panic inside a parallel
    worker aborts the whole computation, modelled by `Except`;
  * Rust's `std::collections::BinaryHeap` is modelled by its backing array
    (a list, index 0 = root): `From<Vec<T>>` is Floyd's heapify with the
    exact `sift_down` comparison directions of the Rust standard library,
    `peek` is the head of the array, and both rayon adapters for
    `BinaryHeap` go through the backing array in its internal order.
-/

deriving instance DecidableEq for Except

namespace Countergather

/-- The largest `u64` value, `2^64 - 1`. -/
def U64MAX : ℕ := 2 ^ 64 - 1

/-- Model of sourmash's `HashFunctions` enumeration (the molecule type of a
sketch: DNA, protein, dayhoff, hp). -/
inductive HashFunctions where
  | murmur64DNA
  | murmur64protein
  | murmur64dayhoff
  | murmur64hp
  deriving DecidableEq

/-- Model of sourmash's `KmerMinHash`: the sketch parameters together with
the finite set of retained hash values (`mins`).  Abundances are not
modelled: the program only ever calls abundance-ignoring operations. -/
structure KmerMinHash where
  ksize : ℕ
  hash_function : HashFunctions
  seed : ℕ
  max_hash : ℕ
  hashes : Finset ℕ
  deriving DecidableEq

/-- Model of a sourmash `Signature`: a name and its list of sketches.  Only
MinHash sketches occur in this program, so the `Sketch` sum type collapses
to `KmerMinHash`. -/
structure Signature where
  name : String
  sketches : List KmerMinHash
  deriving DecidableEq

/-- The sourmash error variants this program can observe.
`MismatchDNAProt` is the variant the source returns for a molecule-type
(hash-function) mismatch, `CannotUpsampleScaled` is the downsampling
failure when the requested cutoff is finer than the sketch's own. -/
inductive SmError where
  | MismatchKSizes
  | MismatchDNAProt
  | MismatchScaled
  | MismatchSeed
  | CannotUpsampleScaled
  deriving DecidableEq

/-- How a model run of `do_countergather` can fail:
`unwrapFailed` models a Rust panic from `.unwrap()` on an `Err`/`None`
(also aborting the rayon pipelines it happens inside),
`ioFailure` models a fatal I/O error propagated with `?`,
`smFailure` models a sourmash error propagated with `?`,
`outOfFuel` is an artifact of the fuel-based model of the unbounded
`while` loop; the termination theorem shows it is never reached when the
fuel is at least the initial candidate count (which is how the fuel is
instantiated). -/
inductive RunError where
  | unwrapFailed
  | ioFailure
  | smFailure (e : SmError)
  | outOfFuel
  deriving DecidableEq

/-- Model of sourmash's `max_hash_for_scaled` (the `f64` computation
`u64::MAX / scaled`, modelled with exact natural division; the two agree on
every value exercised in this development). -/
def max_hash_for_scaled (scaled : ℕ) : ℕ :=
  if scaled = 0 then 0
  else if scaled = 1 then U64MAX
  else U64MAX / scaled

/-- Model of sourmash's `scaled_for_max_hash` (`KmerMinHash::scaled`). -/
def KmerMinHash.scaled (mh : KmerMinHash) : ℕ :=
  if mh.max_hash = 0 then 0 else U64MAX / mh.max_hash

/-- Transcription of `check_compatible_downsample` (src/main.rs:30-59):
candidate `me` is usable for template `other` iff the k-sizes, molecule
types and seeds agree and `me` is at least as fine-grained
(`me.max_hash ≥ other.max_hash`); the checks run in source order and the
first failing one determines the error. -/
def check_compatible_downsample (me other : KmerMinHash) : Except SmError Unit :=
  if me.ksize ≠ other.ksize then .error .MismatchKSizes
  else if me.hash_function ≠ other.hash_function then .error .MismatchDNAProt
  else if me.max_hash < other.max_hash then .error .MismatchScaled
  else if me.seed ≠ other.seed then .error .MismatchSeed
  else .ok ()

/-- Model of sourmash's `KmerMinHash::check_compatible`, the parameter check
performed by `count_common` and `remove_from` (spec: they "fail with a
compatibility error if parameters mismatch"). -/
def KmerMinHash.check_compatible (me other : KmerMinHash) : Except SmError Unit :=
  if me.ksize ≠ other.ksize then .error .MismatchKSizes
  else if me.hash_function ≠ other.hash_function then .error .MismatchDNAProt
  else if me.seed ≠ other.seed then .error .MismatchSeed
  else .ok ()

/-- Model of sourmash's `KmerMinHash::count_common(other, false)`:
after the compatibility check, the cardinality of the intersection of the
two hash sets (abundances ignored). -/
def KmerMinHash.count_common (me other : KmerMinHash) : Except SmError ℕ :=
  match me.check_compatible other with
  | .error e => .error e
  | .ok _ => .ok (me.hashes ∩ other.hashes).card

/-- Model of sourmash's `KmerMinHash::remove_from`: after the compatibility
check, removes `other`'s hashes from `query` (pure set difference). -/
def KmerMinHash.remove_from (query other : KmerMinHash) : Except SmError KmerMinHash :=
  match query.check_compatible other with
  | .error e => .error e
  | .ok _ => .ok { query with hashes := query.hashes \ other.hashes }

/-- Model of sourmash's `KmerMinHash::downsample_max_hash`: coarsening a
sketch to cutoff `h` keeps exactly the hashes `≤ h`; a sketch can never be
refined (requesting a cutoff above the sketch's own `max_hash` fails). -/
def KmerMinHash.downsample_max_hash (mh : KmerMinHash) (h : ℕ) : Except SmError KmerMinHash :=
  if mh.max_hash < h then .error .CannotUpsampleScaled
  else .ok { mh with max_hash := h, hashes := mh.hashes.filter (fun x => x ≤ h) }

/-- Model of sourmash's `Signature::select_sketch`: the first sketch of the
signature already at the template's exact resolution (all four sketch
parameters equal), if any. -/
def Signature.select_sketch (sig : Signature) (template : KmerMinHash) : Option KmerMinHash :=
  sig.sketches.find? (fun mh =>
    decide (mh.ksize = template.ksize ∧ mh.hash_function = template.hash_function ∧
      mh.seed = template.seed ∧ mh.max_hash = template.max_hash))

/-- The downsampling scan of `prepare_query` (src/main.rs:66-77): the first
sketch passing `check_compatible_downsample` is returned downsampled to
`max_hash`; the source unwraps the downsampling result, so a downsampling
failure is a panic. -/
def firstDownsampled (template_mh : KmerMinHash) (max_hash : ℕ) :
    List KmerMinHash → Except RunError (Option KmerMinHash)
  | [] => .ok none
  | ref_mh :: rest =>
    match check_compatible_downsample ref_mh template_mh with
    | .ok _ =>
      match ref_mh.downsample_max_hash max_hash with
      | .ok mh => .ok (some mh)
      | .error _ => .error .unwrapFailed
    | .error _ => firstDownsampled template_mh max_hash rest

/-- Transcription of `prepare_query` (src/main.rs:61-80): a sketch already
at the template's exact resolution is returned as is; otherwise the
signature's sketches are scanned for one that can be downsampled to the
template's resolution (`max_hash_for_scaled` of the template's `scaled`). -/
def prepare_query (search_sig : Signature) (template : KmerMinHash) :
    Except RunError (Option KmerMinHash) :=
  match search_sig.select_sketch template with
  | some mh => .ok (some mh)
  | none => firstDownsampled template (max_hash_for_scaled template.scaled) search_sig.sketches

/-- Transcription of `PrefetchResult` (src/main.rs:82-86); its `Ord`
instance in the source compares by `containment` only. -/
structure PrefetchResult where
  name : String
  minhash : KmerMinHash
  containment : ℕ
  deriving DecidableEq

/-- The containment stored at position `i` of a heap's backing array
(`0` outside the array; only used at in-bounds positions). -/
def contAt (a : List PrefetchResult) (i : ℕ) : ℕ :=
  ((a.get? i).map PrefetchResult.containment).getD 0

/-- Swap the entries at positions `i` and `j` of the backing array (the
effect of the hole-based moves of Rust's `sift_down`). -/
def swapAt (a : List PrefetchResult) (i j : ℕ) : List PrefetchResult :=
  match a.get? i, a.get? j with
  | some x, some y => (a.set i y).set j x
  | _, _ => a

/-- Rust `BinaryHeap::sift_down` (max-heap, `Ord` = containment): walk down
from `pos`, at each node moving to the larger child (the right child on a
tie, as in the Rust source: `child += (get(child) <= get(child+1))`), and
stop as soon as the element is `≥` the chosen child.  The fuel argument
bounds the walk; `a.length` always suffices since the position strictly
increases. -/
def siftDownFuel : ℕ → List PrefetchResult → ℕ → List PrefetchResult
  | 0, a, _ => a
  | fuel + 1, a, pos =>
    let child := 2 * pos + 1
    if child < a.length then
      let child :=
        if child + 1 < a.length ∧ contAt a child ≤ contAt a (child + 1) then child + 1
        else child
      if contAt a child ≤ contAt a pos then a
      else siftDownFuel fuel (swapAt a pos child) child
    else a

/-- Floyd's heap construction as in Rust's `impl From<Vec<T>> for
BinaryHeap<T>`: sift down every index from `n/2 - 1` down to `0`.
`heapifyAux k a` performs the sift-downs at indices `k-1, k-2, …, 0`. -/
def heapifyAux : ℕ → List PrefetchResult → List PrefetchResult
  | 0, a => a
  | k + 1, a => heapifyAux k (siftDownFuel a.length a k)

/-- Rust `BinaryHeap::from(vec)` on the backing array. -/
def heapify (a : List PrefetchResult) : List PrefetchResult :=
  heapifyAux (a.length / 2) a

/-- The `filter_map` closure of `prefetch` (src/main.rs:114-128): recompute
the candidate's containment against the query; keep the candidate, with its
containment refreshed, exactly when the recount succeeds and is positive. -/
def prefetchStep (query : KmerMinHash) (result : PrefetchResult) : Option PrefetchResult :=
  match result.minhash.count_common query with
  | .ok containment =>
    if 0 < containment then some { result with containment := containment } else none
  | .error _ => none

/-- Transcription of `prefetch` (src/main.rs:108-130): recompute every
candidate's containment against the (shrunk) query, keep only candidates
with a successful positive recount, and collect back into a `BinaryHeap`
(rayon iterates the backing array in order and its ordered collect is
order-preserving, so the collect is heapify of the surviving sublist). -/
def prefetch (query : KmerMinHash) (sketchlist : List PrefetchResult) : List PrefetchResult :=
  heapify (sketchlist.filterMap (prefetchStep query))

/-- One round of the gather loop, as recorded in the model's trace:
the query and the heap's backing array at the start of the round, the
selected candidate (`peek`, i.e. the root of the heap) and the query after
the subtraction. -/
structure Round where
  rquery : KmerMinHash
  rheap : List PrefetchResult
  best : PrefetchResult
  rafter : KmerMinHash
  deriving DecidableEq

/-- The two lines the loop body prints in a round (src/main.rs:214,218):
the progress line with the query size and the candidate count, then the
result line naming the selected candidate (its containment is not
printed). -/
def roundLines (r : Round) : List String :=
  ["remaining: " ++ toString r.rquery.hashes.card ++ " " ++ toString r.rheap.length,
   "removing " ++ r.best.name]

/-- The gather loop (src/main.rs:213-223), fuel-indexed: while the heap is
non-empty, peek the root, subtract its hashes from the query (`?` on
failure), recompute all containments with `prefetch`, and continue.  The
result is the round trace together with the printed lines.  The fuel
models the unbounded `while`; the termination theorem shows fuel equal to
the candidate count is never exhausted. -/
def gatherGo : ℕ → KmerMinHash → List PrefetchResult →
    Except RunError (List Round × List String)
  | _, _, [] => .ok ([], [])
  | 0, _, _ :: _ => .error .outOfFuel
  | fuel + 1, query, best :: rest =>
    match query.remove_from best.minhash with
    | .error e => .error (.smFailure e)
    | .ok query2 =>
      match gatherGo fuel query2 (prefetch query2 (best :: rest)) with
      | .error e => .error e
      | .ok (rounds, lines) =>
        .ok ({ rquery := query, rheap := best :: rest, best := best, rafter := query2 } :: rounds,
             roundLines { rquery := query, rheap := best :: rest, best := best, rafter := query2 }
               ++ lines)

/-- The scan over the query file's signatures (src/main.rs:148-156): every
signature yielding a usable sketch overwrites the previous choice, so the
last match wins; a panic inside `prepare_query` aborts. -/
def queryScanAux (template : KmerMinHash) (mm : Option KmerMinHash) :
    List Signature → Except RunError (Option KmerMinHash)
  | [] => .ok mm
  | sig :: rest =>
    match prepare_query sig template with
    | .error e => .error e
    | .ok (some mh) => queryScanAux template (some mh) rest
    | .ok none => queryScanAux template mm rest

/-- The scan over one matchlist entry's signatures (src/main.rs:186-200):
the first signature whose usable sketch has a successful, positive
containment against the query wins (`break`); signatures whose sketch has
zero containment or a failing `count_common` are passed over. -/
def entryScan (template query : KmerMinHash) :
    List Signature → Except RunError (Option PrefetchResult)
  | [] => .ok none
  | sig :: rest =>
    match prepare_query sig template with
    | .error e => .error e
    | .ok none => entryScan template query rest
    | .ok (some mh) =>
      match mh.count_common query with
      | .ok containment =>
        if 0 < containment then
          .ok (some { name := sig.name, minhash := mh, containment := containment })
        else entryScan template query rest
      | .error _ => entryScan template query rest

/-- Loading one matchlist entry (src/main.rs:182-202): the signature file is
read with `Signature::from_path(m).unwrap()`, so an unreadable or
unparseable candidate file panics (aborting the whole rayon pipeline);
a readable file contributes its first positive-containment signature, or
nothing. -/
def loadEntry (template query : KmerMinHash) (file : Option (List Signature)) :
    Except RunError (Option PrefetchResult) :=
  match file with
  | none => .error .unwrapFailed
  | some sigs => entryScan template query sigs

/-- Loading the whole matchlist (src/main.rs:180-203): each entry in order
(rayon's ordered collect preserves the path order); any entry failure
aborts the run. -/
def loadMatchlist (template query : KmerMinHash) :
    List (Option (List Signature)) → Except RunError (List PrefetchResult)
  | [] => .ok []
  | f :: rest =>
    match loadEntry template query f with
    | .error e => .error e
    | .ok none => loadMatchlist template query rest
    | .ok (some r) =>
      match loadMatchlist template query rest with
      | .error e => .error e
      | .ok l => .ok (r :: l)

/-- Transcription of `do_countergather` (src/main.rs:132-226), over
abstract file contents: load the query (unreadable query file or no usable
sketch panics, last usable sketch wins), open the matchlist (`?`, fatal),
load the candidates (any unreadable entry panics), and run the gather loop
on the heapified candidates; an initially empty candidate list just prints
the terminal message.  The returned trace carries the per-round states and
all printed loop lines. -/
def do_countergather (template : KmerMinHash) (queryFile : Option (List Signature))
    (matchlistFile : Option (List (Option (List Signature)))) :
    Except RunError (List Round × List String) :=
  match queryFile with
  | none => .error .unwrapFailed
  | some qsigs =>
    match queryScanAux template none qsigs with
    | .error e => .error e
    | .ok none => .error .unwrapFailed
    | .ok (some query) =>
      match matchlistFile with
      | none => .error .ioFailure
      | some entries =>
        match loadMatchlist template query entries with
        | .error e => .error e
        | .ok results =>
          let heap := heapify results
          if heap.isEmpty then .ok ([], ["No matchlist signatures loaded, exiting."])
          else gatherGo heap.length query heap

/-- The template hard-coded in `do_countergather` (src/main.rs:136-142):
ksize 31, DNA, sourmash's default seed 42, `max_hash` for scaled 100000. -/
def mainTemplate : KmerMinHash :=
  { ksize := 31, hash_function := .murmur64DNA, seed := 42,
    max_hash := max_hash_for_scaled 100000, hashes := ∅ }

/-- The ordered gather result sequence of a trace: the selected candidate's
name and its containment at the moment of selection, in round order. -/
def gatherResults (rounds : List Round) : List (String × ℕ) :=
  rounds.map (fun r => (r.best.name, r.best.containment))

/-- The round trace of a run (empty for a failed run). -/
def runRounds (x : Except RunError (List Round × List String)) : List Round :=
  match x with
  | .ok p => p.1
  | .error _ => []

/-- The printed loop lines of a run (empty for a failed run). -/
def runLines (x : Except RunError (List Round × List String)) : List String :=
  match x with
  | .ok p => p.2
  | .error _ => []

/-! ### Concrete scenario inputs used by the claim theorems and witnesses -/

/-- A run template at cutoff 5 (the spec's Scenario A with a `max_hash`
below 6, so that the hash 6 of candidate B is actually removed by
downsampling). -/
def template5 : KmerMinHash :=
  { ksize := 31, hash_function := .murmur64DNA, seed := 42, max_hash := 5, hashes := ∅ }

/-- A run template at cutoff 10 (the spec's Scenario A as literally stated:
"max_hash admits all values up to 10"). -/
def template10 : KmerMinHash :=
  { ksize := 31, hash_function := .murmur64DNA, seed := 42, max_hash := 10, hashes := ∅ }

/-- Scenario A query signature (hashes 1..5) at resolution 5. -/
def sigQA : Signature :=
  { name := "query", sketches :=
      [{ ksize := 31, hash_function := .murmur64DNA, seed := 42, max_hash := 5,
         hashes := {1, 2, 3, 4, 5} }] }

/-- Scenario A candidate A (hashes 1..3) at resolution 5. -/
def sigA : Signature :=
  { name := "A", sketches :=
      [{ ksize := 31, hash_function := .murmur64DNA, seed := 42, max_hash := 5,
         hashes := {1, 2, 3} }] }

/-- Scenario A candidate B's raw sketch: hashes {3,4,5,6} at resolution 10
(finer than the cutoff-5 template, so it gets downsampled). -/
def bRaw : KmerMinHash :=
  { ksize := 31, hash_function := .murmur64DNA, seed := 42, max_hash := 10,
    hashes := {3, 4, 5, 6} }

/-- Scenario A candidate B's signature. -/
def sigB : Signature := { name := "B", sketches := [bRaw] }

/-- The Scenario A run at cutoff 5. -/
def runA : Except RunError (List Round × List String) :=
  do_countergather template5 (some [sigQA]) (some [some [sigA], some [sigB]])

/-- Scenario A query signature at resolution 10. -/
def sigQA10 : Signature :=
  { name := "query", sketches :=
      [{ ksize := 31, hash_function := .murmur64DNA, seed := 42, max_hash := 10,
         hashes := {1, 2, 3, 4, 5} }] }

/-- Scenario A candidate A at resolution 10. -/
def sigA10 : Signature :=
  { name := "A", sketches :=
      [{ ksize := 31, hash_function := .murmur64DNA, seed := 42, max_hash := 10,
         hashes := {1, 2, 3} }] }

/-- The Scenario A run at cutoff 10, as the claim literally states it. -/
def runA10 : Except RunError (List Round × List String) :=
  do_countergather template10 (some [sigQA10]) (some [some [sigA10], some [sigB]])

/-- The Scenario A query sketch as prepared by the run at cutoff 5. -/
def qA5 : KmerMinHash :=
  { ksize := 31, hash_function := .murmur64DNA, seed := 42, max_hash := 5,
    hashes := {1, 2, 3, 4, 5} }

/-- Candidate A's loaded entry in Scenario A (containment 3 against `qA5`). -/
def prA3 : PrefetchResult :=
  { name := "A",
    minhash := { ksize := 31, hash_function := .murmur64DNA, seed := 42, max_hash := 5,
                 hashes := {1, 2, 3} },
    containment := 3 }

/-- Candidate B's loaded entry in Scenario A (downsampled to {3,4,5},
containment 3 against `qA5`). -/
def prB3 : PrefetchResult :=
  { name := "B",
    minhash := { ksize := 31, hash_function := .murmur64DNA, seed := 42, max_hash := 5,
                 hashes := {3, 4, 5} },
    containment := 3 }

/-- Tie-break scenario: query with hashes 1..7 at resolution 10. -/
def sigQ9 : Signature :=
  { name := "q9", sketches :=
      [{ ksize := 31, hash_function := .murmur64DNA, seed := 42, max_hash := 10,
         hashes := {1, 2, 3, 4, 5, 6, 7} }] }

/-- The prepared query sketch of the tie-break scenario. -/
def q9 : KmerMinHash :=
  { ksize := 31, hash_function := .murmur64DNA, seed := 42, max_hash := 10,
    hashes := {1, 2, 3, 4, 5, 6, 7} }

/-- Tie-break scenario candidate N1 = {1} (containment 1). -/
def sigN1 : Signature :=
  { name := "N1", sketches :=
      [{ ksize := 31, hash_function := .murmur64DNA, seed := 42, max_hash := 10,
         hashes := {1} }] }

/-- Tie-break scenario candidate N2 = {2,3,4} (containment 3, loaded second). -/
def sigN2 : Signature :=
  { name := "N2", sketches :=
      [{ ksize := 31, hash_function := .murmur64DNA, seed := 42, max_hash := 10,
         hashes := {2, 3, 4} }] }

/-- Tie-break scenario candidate N3 = {5,6,7} (containment 3, loaded third). -/
def sigN3 : Signature :=
  { name := "N3", sketches :=
      [{ ksize := 31, hash_function := .murmur64DNA, seed := 42, max_hash := 10,
         hashes := {5, 6, 7} }] }

/-- The entries of the tie-break matchlist, in load order. -/
def tieEntries : List (Option (List Signature)) := [some [sigN1], some [sigN2], some [sigN3]]

/-- The tie-break run: containments 1, 3, 3 in load order, the maximum is
shared by N2 and N3. -/
def runTie : Except RunError (List Round × List String) :=
  do_countergather template10 (some [sigQ9]) (some tieEntries)

/-- N1's loaded entry in the tie-break scenario. -/
def prN1 : PrefetchResult :=
  { name := "N1",
    minhash := { ksize := 31, hash_function := .murmur64DNA, seed := 42, max_hash := 10,
                 hashes := {1} },
    containment := 1 }

/-- N2's loaded entry in the tie-break scenario. -/
def prN2 : PrefetchResult :=
  { name := "N2",
    minhash := { ksize := 31, hash_function := .murmur64DNA, seed := 42, max_hash := 10,
                 hashes := {2, 3, 4} },
    containment := 3 }

/-- N3's loaded entry in the tie-break scenario. -/
def prN3 : PrefetchResult :=
  { name := "N3",
    minhash := { ksize := 31, hash_function := .murmur64DNA, seed := 42, max_hash := 10,
                 hashes := {5, 6, 7} },
    containment := 3 }

/-- Multi-signature-policy scenario: a query sketch {1,2,3} at resolution 10. -/
def q10 : KmerMinHash :=
  { ksize := 31, hash_function := .murmur64DNA, seed := 42, max_hash := 10,
    hashes := {1, 2, 3} }

/-- First signature of the two-signature file: usable sketch {1,2}. -/
def mhS1 : KmerMinHash :=
  { ksize := 31, hash_function := .murmur64DNA, seed := 42, max_hash := 10, hashes := {1, 2} }

/-- Second signature of the two-signature file: usable sketch {2,3}. -/
def mhS2 : KmerMinHash :=
  { ksize := 31, hash_function := .murmur64DNA, seed := 42, max_hash := 10, hashes := {2, 3} }

/-- The first signature of the two-signature file. -/
def sigS1 : Signature := { name := "S1", sketches := [mhS1] }

/-- The second signature of the two-signature file. -/
def sigS2 : Signature := { name := "S2", sketches := [mhS2] }

/-- A one-candidate query sketch used by small witnesses. -/
def qW : KmerMinHash :=
  { ksize := 31, hash_function := .murmur64DNA, seed := 42, max_hash := 10, hashes := {5} }

/-- A single loaded candidate with sketch {5}, containment 1 against `qW`. -/
def prX : PrefetchResult :=
  { name := "X",
    minhash := { ksize := 31, hash_function := .murmur64DNA, seed := 42, max_hash := 10,
                 hashes := {5} },
    containment := 1 }

/-! ### Permutation lemmas for the heap model -/

/-- Moving the element at position `j` to the front while writing `x` at
position `j` permutes `x` onto the front. -/
theorem cons_set_perm {α : Type} (t : List α) :
    ∀ (j : ℕ) (x : α) (h : j < t.length), (t.get ⟨j, h⟩ :: t.set j x).Perm (x :: t) := by
  induction t with
  | nil => intro j x h; exact absurd h (by simp)
  | cons z s ih =>
    intro j x h
    cases j with
    | zero => simpa using List.Perm.swap x z s
    | succ j =>
      have h2 : j < s.length := Nat.lt_of_succ_lt_succ (by simpa using h)
      have step1 : (s.get ⟨j, h2⟩ :: z :: s.set j x).Perm (z :: s.get ⟨j, h2⟩ :: s.set j x) :=
        List.Perm.swap z (s.get ⟨j, h2⟩) (s.set j x)
      have step2 : (z :: s.get ⟨j, h2⟩ :: s.set j x).Perm (z :: x :: s) := (ih j x h2).cons z
      have step3 : (z :: x :: s).Perm (x :: z :: s) := List.Perm.swap x z s
      simpa using (step1.trans step2).trans step3

/-- Swapping two in-bounds entries by a pair of `set`s is a permutation. -/
theorem set_swap_perm {α : Type} :
    ∀ (a : List α) (i j : ℕ) (hi : i < a.length) (hj : j < a.length),
      ((a.set i (a.get ⟨j, hj⟩)).set j (a.get ⟨i, hi⟩)).Perm a := by
  intro a
  induction a with
  | nil => intro i j hi _; exact absurd hi (by simp)
  | cons z s ih =>
    intro i j hi hj
    match i, j with
    | 0, 0 => simp
    | 0, j + 1 =>
      have hj2 : j < s.length := Nat.lt_of_succ_lt_succ (by simpa using hj)
      simpa using cons_set_perm s j z hj2
    | i + 1, 0 =>
      have hi2 : i < s.length := Nat.lt_of_succ_lt_succ (by simpa using hi)
      simpa using cons_set_perm s i z hi2
    | i + 1, j + 1 =>
      have hi2 : i < s.length := Nat.lt_of_succ_lt_succ (by simpa using hi)
      have hj2 : j < s.length := Nat.lt_of_succ_lt_succ (by simpa using hj)
      simpa using (ih i j hi2 hj2).cons z

/-- `swapAt` is a permutation. -/
theorem swapAt_perm (a : List PrefetchResult) (i j : ℕ) : (swapAt a i j).Perm a := by
  unfold swapAt
  split
  case _ x y hx hy =>
    have hi : i < a.length := (List.get?_eq_some.mp hx).1
    have hj : j < a.length := (List.get?_eq_some.mp hy).1
    have hxv : a.get ⟨i, hi⟩ = x := (List.get?_eq_some.mp hx).2
    have hyv : a.get ⟨j, hj⟩ = y := (List.get?_eq_some.mp hy).2
    rw [← hxv, ← hyv]
    exact set_swap_perm a i j hi hj
  case _ => exact List.Perm.refl a

/-- `siftDownFuel` is a permutation. -/
theorem siftDownFuel_perm : ∀ (fuel : ℕ) (a : List PrefetchResult) (pos : ℕ),
    (siftDownFuel fuel a pos).Perm a := by
  intro fuel
  induction fuel with
  | zero => intro a pos; exact List.Perm.refl a
  | succ fuel ih =>
    intro a pos
    unfold siftDownFuel
    dsimp only
    repeat' split
    all_goals first
      | exact List.Perm.refl a
      | exact (ih _ _).trans (swapAt_perm a pos _)

/-- `heapifyAux` is a permutation. -/
theorem heapifyAux_perm : ∀ (k : ℕ) (a : List PrefetchResult), (heapifyAux k a).Perm a := by
  intro k
  induction k with
  | zero => intro a; exact List.Perm.refl a
  | succ k ih =>
    intro a
    exact (ih _).trans (siftDownFuel_perm a.length a k)

/-- Heap construction is a permutation of the collected candidates: the heap
reorders, but neither drops nor invents anything. -/
theorem heapify_perm (a : List PrefetchResult) : (heapify a).Perm a :=
  heapifyAux_perm (a.length / 2) a

/-- Heap construction preserves the number of candidates. -/
theorem heapify_length (a : List PrefetchResult) : (heapify a).length = a.length :=
  (heapify_perm a).length_eq

/-- Heap construction preserves membership. -/
theorem heapify_mem {x : PrefetchResult} {a : List PrefetchResult} :
    x ∈ heapify a ↔ x ∈ a :=
  (heapify_perm a).mem_iff

/-! ### Characterization lemmas for the sourmash models -/

/-- `check_compatible` succeeds exactly when k-size, molecule type and seed
agree. -/
theorem check_compatible_ok_iff {me other : KmerMinHash} :
    me.check_compatible other = .ok () ↔
      me.ksize = other.ksize ∧ me.hash_function = other.hash_function ∧
        me.seed = other.seed := by
  unfold KmerMinHash.check_compatible
  split_ifs <;> simp_all

/-- `check_compatible` only reads the sketch parameters, never the hash
set, so replacing the hashes of the left sketch does not change it. -/
theorem check_compatible_set_hashes_left (q m : KmerMinHash) (s : Finset ℕ) :
    KmerMinHash.check_compatible { q with hashes := s } m = q.check_compatible m := rfl

/-- `check_compatible` only reads the sketch parameters of the right sketch
as well. -/
theorem check_compatible_set_hashes_right (q m : KmerMinHash) (s : Finset ℕ) :
    m.check_compatible { q with hashes := s } = m.check_compatible q := rfl

/-- `count_common` succeeds exactly on compatible sketches, and then
returns the cardinality of the intersection of the hash sets. -/
theorem count_common_ok_iff {me other : KmerMinHash} {c : ℕ} :
    me.count_common other = .ok c ↔
      me.check_compatible other = .ok () ∧ c = (me.hashes ∩ other.hashes).card := by
  unfold KmerMinHash.count_common
  split
  case _ e heq => simp [heq]
  case _ u heq =>
    cases u
    simp [heq, eq_comm]

/-- `remove_from` succeeds exactly on compatible sketches, and then removes
the other sketch's hashes (pure set difference), leaving the parameters
untouched. -/
theorem remove_from_ok_iff {q m q2 : KmerMinHash} :
    q.remove_from m = .ok q2 ↔
      q.check_compatible m = .ok () ∧ q2 = { q with hashes := q.hashes \ m.hashes } := by
  unfold KmerMinHash.remove_from
  split
  case _ e heq => simp [heq]
  case _ u heq =>
    cases u
    simp [heq, eq_comm]

/-- What it means for the `prefetch` closure to keep a candidate: the
recount succeeded with a positive value, which replaces the stored
containment. -/
theorem prefetchStep_eq_some_iff {q : KmerMinHash} {r r2 : PrefetchResult} :
    prefetchStep q r = some r2 ↔
      ∃ c, r.minhash.count_common q = .ok c ∧ 0 < c ∧ r2 = { r with containment := c } := by
  constructor
  · intro h
    unfold prefetchStep at h
    split at h
    case _ c heq =>
      split at h
      case _ hc => exact ⟨c, heq, hc, (Option.some.inj h).symm⟩
      case _ => exact absurd h (by simp)
    case _ => exact absurd h (by simp)
  · rintro ⟨c, heq, hc, rfl⟩
    unfold prefetchStep
    rw [heq]
    simp [hc]

/-- A candidate sharing no hash with the query is dropped by the `prefetch`
closure. -/
theorem prefetchStep_none_of_zero {q : KmerMinHash} {r : PrefetchResult}
    (h : (r.minhash.hashes ∩ q.hashes).card = 0) : prefetchStep q r = none := by
  unfold prefetchStep
  split
  case _ c heq =>
    have hc : c = (r.minhash.hashes ∩ q.hashes).card := (count_common_ok_iff.mp heq).2
    simp [hc, h]
  case _ => rfl

/-- Membership in a recomputed heap, through the heapify permutation. -/
theorem mem_prefetch_iff {q : KmerMinHash} {hs : List PrefetchResult} {r2 : PrefetchResult} :
    r2 ∈ prefetch q hs ↔ ∃ r ∈ hs, prefetchStep q r = some r2 := by
  unfold prefetch
  rw [heapify_mem, List.mem_filterMap]

/-- Every member of a recomputed heap descends from an input candidate with
the same name and sketch, and carries an accurate, positive containment
against the new query. -/
theorem mem_prefetch_shape {q : KmerMinHash} {hs : List PrefetchResult} {r2 : PrefetchResult}
    (h : r2 ∈ prefetch q hs) :
    ∃ r ∈ hs, r2.name = r.name ∧ r2.minhash = r.minhash ∧
      r2.containment = (r2.minhash.hashes ∩ q.hashes).card ∧ 0 < r2.containment := by
  obtain ⟨r, hr, hstep⟩ := mem_prefetch_iff.mp h
  obtain ⟨c, hcc, hc, rfl⟩ := prefetchStep_eq_some_iff.mp hstep
  have hcard := (count_common_ok_iff.mp hcc).2
  exact ⟨r, hr, rfl, rfl, by simpa using hcard, by simpa using hc⟩

/-- Recomputation does not lengthen the candidate list. -/
theorem prefetch_length_le (q : KmerMinHash) (hs : List PrefetchResult) :
    (prefetch q hs).length ≤ hs.length := by
  unfold prefetch
  rw [heapify_length]
  exact List.length_filterMap_le _ _

/-- After a successful subtraction of the selected candidate's hashes, the
recomputed heap has lost at least that candidate: its recount against the
shrunk query is necessarily zero, so the zero-containment filter drops it. -/
theorem prefetch_drops_selected {q q2 : KmerMinHash} {best : PrefetchResult}
    (h : q.remove_from best.minhash = .ok q2) (rest : List PrefetchResult) :
    (prefetch q2 (best :: rest)).length ≤ rest.length := by
  have hq2 : q2 = { q with hashes := q.hashes \ best.minhash.hashes } :=
    (remove_from_ok_iff.mp h).2
  have hzero : (best.minhash.hashes ∩ q2.hashes).card = 0 := by
    subst hq2
    simp [Finset.inter_sdiff_self]
  have hnone : prefetchStep q2 best = none := prefetchStep_none_of_zero hzero
  unfold prefetch
  rw [heapify_length, List.filterMap_cons, hnone]
  exact List.length_filterMap_le _ _

/-! ### Gather-loop lemmas -/

/-- A successful trace step: unfolding one round of `gatherGo`. -/
theorem gatherGo_cons_eq {fuel : ℕ} {q q2 : KmerMinHash} {best : PrefetchResult}
    {rest : List PrefetchResult} {rounds : List Round} {lines : List String}
    (hrm : q.remove_from best.minhash = .ok q2)
    (hg : gatherGo fuel q2 (prefetch q2 (best :: rest)) = .ok (rounds, lines)) :
    gatherGo (fuel + 1) q (best :: rest) =
      .ok ({ rquery := q, rheap := best :: rest, best := best, rafter := q2 } :: rounds,
        roundLines { rquery := q, rheap := best :: rest, best := best, rafter := q2 } ++ lines) := by
  rw [gatherGo, hrm]
  dsimp only
  rw [hg]

/-- Inversion of one successful round of `gatherGo`. -/
theorem gatherGo_cons_inv {fuel : ℕ} {q : KmerMinHash} {best : PrefetchResult}
    {rest : List PrefetchResult} {rounds : List Round} {lines : List String}
    (h : gatherGo (fuel + 1) q (best :: rest) = .ok (rounds, lines)) :
    ∃ q2 rounds2 lines2,
      q.remove_from best.minhash = .ok q2 ∧
      gatherGo fuel q2 (prefetch q2 (best :: rest)) = .ok (rounds2, lines2) ∧
      rounds = { rquery := q, rheap := best :: rest, best := best, rafter := q2 } :: rounds2 ∧
      lines = roundLines { rquery := q, rheap := best :: rest, best := best, rafter := q2 }
        ++ lines2 := by
  rw [gatherGo] at h
  cases hrm : q.remove_from best.minhash with
  | error e =>
    rw [hrm] at h
    dsimp only at h
    exact absurd h (by simp)
  | ok q2 =>
    rw [hrm] at h
    dsimp only at h
    cases hg : gatherGo fuel q2 (prefetch q2 (best :: rest)) with
    | error e =>
      rw [hg] at h
      dsimp only at h
      exact absurd h (by simp)
    | ok p =>
      obtain ⟨rounds2, lines2⟩ := p
      rw [hg] at h
      dsimp only at h
      have hp := Except.ok.inj h
      have h1 : _ :: rounds2 = rounds := congrArg Prod.fst hp
      have h2 : _ ++ lines2 = lines := congrArg Prod.snd hp
      exact ⟨q2, rounds2, lines2, rfl, hg, h1.symm, h2.symm⟩

/-- An empty heap ends the loop at once, with no rounds and no lines. -/
theorem gatherGo_nil (fuel : ℕ) (q : KmerMinHash) : gatherGo fuel q [] = .ok ([], []) := by
  cases fuel <;> rfl

/-- C3: termination and round bound of the gather loop: on a candidate heap
whose sketches are all compatible with the query, the loop with fuel at
least the heap size runs to completion (the DONE state) and performs at
most one round per initial candidate, because the selected root is
unconditionally lost by the recomputation (its recount is zero) and
no round adds candidates. -/
theorem gather_terminates :
    ∀ (fuel : ℕ) (q : KmerMinHash) (hs : List PrefetchResult),
      hs.length ≤ fuel →
      (∀ r ∈ hs, q.check_compatible r.minhash = .ok ()) →
      ∃ rounds lines, gatherGo fuel q hs = .ok (rounds, lines) ∧
        rounds.length ≤ hs.length := by
  intro fuel
  induction fuel with
  | zero =>
    intro q hs hlen _
    have hnil : hs = [] := List.eq_nil_of_length_eq_zero (Nat.le_zero.mp hlen)
    subst hnil
    exact ⟨[], [], gatherGo_nil 0 q, le_rfl⟩
  | succ fuel ih =>
    intro q hs hlen hcompat
    cases hs with
    | nil => exact ⟨[], [], gatherGo_nil _ q, le_rfl⟩
    | cons best rest =>
      have hc : q.check_compatible best.minhash = .ok () := hcompat best (by simp)
      have hrm : q.remove_from best.minhash =
          .ok { q with hashes := q.hashes \ best.minhash.hashes } :=
        remove_from_ok_iff.mpr ⟨hc, rfl⟩
      have hdrop := prefetch_drops_selected hrm rest
      have hlen2 : (prefetch { q with hashes := q.hashes \ best.minhash.hashes }
          (best :: rest)).length ≤ fuel :=
        le_trans hdrop (Nat.le_of_succ_le_succ (by simpa using hlen))
      have hcompat2 : ∀ r ∈ prefetch { q with hashes := q.hashes \ best.minhash.hashes }
          (best :: rest),
          KmerMinHash.check_compatible { q with hashes := q.hashes \ best.minhash.hashes }
            r.minhash = .ok () := by
        intro r hr
        obtain ⟨r0, hr0, _, hmh, _, _⟩ := mem_prefetch_shape hr
        rw [check_compatible_set_hashes_left, hmh]
        exact hcompat r0 (by simp [hr0])
      obtain ⟨rounds2, lines2, hg, hlen3⟩ := ih _ _ hlen2 hcompat2
      refine ⟨_, _, gatherGo_cons_eq hrm hg, ?_⟩
      have : rounds2.length ≤ rest.length := le_trans hlen3 hdrop
      simpa using Nat.succ_le_succ this

/-- Trace invariant of the gather loop: every recorded round has a query
contained in the initial query, and (provided the initial candidates all
genuinely intersect the initial query, which `prefetch` and the candidate
loader both guarantee) every candidate in a recorded heap genuinely
intersects that round's query. -/
theorem gather_trace_inv :
    ∀ (fuel : ℕ) (q : KmerMinHash) (hs : List PrefetchResult) (rounds : List Round)
      (lines : List String),
      gatherGo fuel q hs = .ok (rounds, lines) →
      (∀ r ∈ hs, 0 < (r.minhash.hashes ∩ q.hashes).card) →
      ∀ R ∈ rounds, R.rquery.hashes ⊆ q.hashes ∧
        ∀ r2 ∈ R.rheap, 0 < (r2.minhash.hashes ∩ R.rquery.hashes).card := by
  intro fuel
  induction fuel with
  | zero =>
    intro q hs rounds lines hg hpos R hR
    cases hs with
    | nil =>
      rw [gatherGo_nil] at hg
      have : ([] : List Round) = rounds := congrArg Prod.fst (Except.ok.inj hg)
      rw [← this] at hR
      exact absurd hR (by simp)
    | cons best rest => exact absurd hg (by simp [gatherGo])
  | succ fuel ih =>
    intro q hs rounds lines hg hpos R hR
    cases hs with
    | nil =>
      rw [gatherGo_nil] at hg
      have : ([] : List Round) = rounds := congrArg Prod.fst (Except.ok.inj hg)
      rw [← this] at hR
      exact absurd hR (by simp)
    | cons best rest =>
      obtain ⟨q2, rounds2, lines2, hrm, hg2, hrounds, _⟩ := gatherGo_cons_inv hg
      subst hrounds
      have hq2sub : q2.hashes ⊆ q.hashes := by
        have := (remove_from_ok_iff.mp hrm).2
        subst this
        exact Finset.sdiff_subset
      rcases List.mem_cons.mp hR with hhead | htail
      · subst hhead
        exact ⟨Finset.Subset.refl _, hpos⟩
      · have hpos2 : ∀ r ∈ prefetch q2 (best :: rest),
            0 < (r.minhash.hashes ∩ q2.hashes).card := by
          intro r hr
          obtain ⟨_, _, _, _, hcont, hposc⟩ := mem_prefetch_shape hr
          rw [← hcont]
          exact hposc
        obtain ⟨hsub, hheap⟩ := ih q2 _ rounds2 lines2 hg2 hpos2 R htail
        exact ⟨hsub.trans hq2sub, hheap⟩

/-- C4 (amended): once a candidate is selected in a round, no later round's candidate set
contains any entry with its hash set: the subtraction empties its overlap
with every later query, and the recomputation's positivity filter then
keeps it out (there is no separate eviction in the code — the loop peeks
without popping). -/
theorem selected_never_reoffered :
    ∀ (fuel : ℕ) (q : KmerMinHash) (hs : List PrefetchResult),
      (runRounds (gatherGo fuel q hs)).Pairwise
        (fun a b => ∀ r2 ∈ b.rheap, r2.minhash.hashes ≠ a.best.minhash.hashes) := by
  intro fuel
  induction fuel with
  | zero =>
    intro q hs
    cases hs with
    | nil => simp [gatherGo_nil, runRounds]
    | cons best rest => simp [gatherGo, runRounds]
  | succ fuel ih =>
    intro q hs
    cases hs with
    | nil => simp [gatherGo_nil, runRounds]
    | cons best rest =>
      cases hg : gatherGo (fuel + 1) q (best :: rest) with
      | error e => simp [runRounds]
      | ok p =>
        obtain ⟨rounds, lines⟩ := p
        obtain ⟨q2, rounds2, lines2, hrm, hg2, hrounds, _⟩ := gatherGo_cons_inv hg
        subst hrounds
        unfold runRounds
        refine List.Pairwise.cons ?_ ?_
        · intro b hb r2 hr2 heq
          have hpos2 : ∀ r ∈ prefetch q2 (best :: rest),
              0 < (r.minhash.hashes ∩ q2.hashes).card := by
            intro r hr
            obtain ⟨_, _, _, _, hcont, hposc⟩ := mem_prefetch_shape hr
            rw [← hcont]
            exact hposc
          obtain ⟨hsub, hheap⟩ := gather_trace_inv fuel q2 _ rounds2 lines2 hg2 hpos2 b hb
          have hposb := hheap r2 hr2
          rw [heq] at hposb
          have hq2 : q2 = { q with hashes := q.hashes \ best.minhash.hashes } :=
            (remove_from_ok_iff.mp hrm).2
          have hdisj : best.minhash.hashes ∩ b.rquery.hashes = ∅ := by
            apply Finset.subset_empty.mp
            intro x hx
            have hxb : x ∈ best.minhash.hashes := (Finset.mem_inter.mp hx).1
            have hxq : x ∈ b.rquery.hashes := (Finset.mem_inter.mp hx).2
            have hxq2 : x ∈ q2.hashes := hsub hxq
            rw [hq2] at hxq2
            exact absurd (Finset.mem_sdiff.mp hxq2).2 (by simp [hxb])
          rw [hdisj] at hposb
          exact absurd hposb (by simp)
        · have := ih q2 (prefetch q2 (best :: rest))
          rw [hg2] at this
          exact this

/-- C8 (amended): in every round the engine emits a progress line with the
current query size and remaining candidate count followed by the result
line "removing {name}" naming the selected candidate (the heap root); the
printed lines are exactly, in order, the two per-round lines of each
recorded round, and every recorded round selects the root of its heap. -/
theorem gather_output_lines :
    ∀ (fuel : ℕ) (q : KmerMinHash) (hs : List PrefetchResult) (rounds : List Round)
      (lines : List String), gatherGo fuel q hs = .ok (rounds, lines) →
      lines = rounds.flatMap roundLines ∧ ∀ R ∈ rounds, R.rheap.head? = some R.best := by
  intro fuel
  induction fuel with
  | zero =>
    intro q hs rounds lines hg
    cases hs with
    | nil =>
      rw [gatherGo_nil] at hg
      have hp := Except.ok.inj hg
      have h1 : ([] : List Round) = rounds := congrArg Prod.fst hp
      have h2 : ([] : List String) = lines := congrArg Prod.snd hp
      subst h1
      subst h2
      simp
    | cons best rest => exact absurd hg (by simp [gatherGo])
  | succ fuel ih =>
    intro q hs rounds lines hg
    cases hs with
    | nil =>
      rw [gatherGo_nil] at hg
      have hp := Except.ok.inj hg
      have h1 : ([] : List Round) = rounds := congrArg Prod.fst hp
      have h2 : ([] : List String) = lines := congrArg Prod.snd hp
      subst h1
      subst h2
      simp
    | cons best rest =>
      obtain ⟨q2, rounds2, lines2, _, hg2, hrounds, hlines⟩ := gatherGo_cons_inv hg
      subst hrounds
      subst hlines
      obtain ⟨ihl, ihh⟩ := ih _ _ rounds2 lines2 hg2
      constructor
      · rw [ihl]
        simp
      · intro R hR
        rcases List.mem_cons.mp hR with hhead | htail
        · subst hhead
          rfl
        · exact ihh R htail

/-! ### Compatibility and normalization -/

/-- Success characterization of `check_compatible_downsample`: all four
rules hold. -/
theorem ccd_ok_iff {me other : KmerMinHash} :
    check_compatible_downsample me other = .ok () ↔
      me.ksize = other.ksize ∧ me.hash_function = other.hash_function ∧
        me.seed = other.seed ∧ other.max_hash ≤ me.max_hash := by
  unfold check_compatible_downsample
  split_ifs <;> simp_all [not_lt]

/-- The downsampling scan returns the first compatible sketch downsampled
(to a cutoff not above its own, which compatibility with the template
guarantees when the cutoff is the template's `max_hash`). -/
theorem firstDownsampled_found (template : KmerMinHash) :
    ∀ (pre : List KmerMinHash) (s : KmerMinHash) (post : List KmerMinHash),
      (∀ t ∈ pre, check_compatible_downsample t template ≠ .ok ()) →
      check_compatible_downsample s template = .ok () →
      firstDownsampled template template.max_hash (pre ++ s :: post) =
        .ok (some { s with
                    max_hash := template.max_hash,
                    hashes := s.hashes.filter (fun x => x ≤ template.max_hash) }) := by
  intro pre
  induction pre with
  | nil =>
    intro s post _ hs
    rw [List.nil_append, firstDownsampled, hs]
    have hle : template.max_hash ≤ s.max_hash := (ccd_ok_iff.mp hs).2.2.2
    dsimp only
    unfold KmerMinHash.downsample_max_hash
    rw [if_neg (not_lt.mpr hle)]
  | cons t pre ih =>
    intro s post hpre hs
    rw [List.cons_append, firstDownsampled]
    cases hct : check_compatible_downsample t template with
    | ok u =>
      cases u
      exact absurd hct (hpre t (by simp))
    | error e =>
      dsimp only
      exact ih s post (fun t2 ht2 => hpre t2 (by simp [ht2])) hs

/-- The downsampling scan returns `none` when no sketch is compatible. -/
theorem firstDownsampled_none (template : KmerMinHash) (cutoff : ℕ) :
    ∀ l : List KmerMinHash,
      (∀ t ∈ l, check_compatible_downsample t template ≠ .ok ()) →
      firstDownsampled template cutoff l = .ok none := by
  intro l
  induction l with
  | nil => intro _; rfl
  | cons t rest ih =>
    intro hl
    rw [firstDownsampled]
    cases hct : check_compatible_downsample t template with
    | ok u =>
      cases u
      exact absurd hct (hl t (by simp))
    | error e =>
      dsimp only
      exact ih (fun t2 ht2 => hl t2 (by simp [ht2]))

/-- C5: the compatibility check returns `Ok` exactly when the four rules
hold (k-sizes equal, molecule types equal, seeds equal, candidate
`max_hash ≥` template `max_hash`); each violated rule — in the source's
check order — yields its corresponding error variant (the molecule-type
mismatch variant is the sourmash `MismatchDNAProt` error, the variant the
source returns for a molecule-type mismatch), and in particular a
candidate coarser than the template is always rejected. -/
theorem check_compatible_downsample_spec (me other : KmerMinHash) :
    (check_compatible_downsample me other = .ok () ↔
      me.ksize = other.ksize ∧ me.hash_function = other.hash_function ∧
        me.seed = other.seed ∧ other.max_hash ≤ me.max_hash)
    ∧ (me.ksize ≠ other.ksize →
        check_compatible_downsample me other = .error .MismatchKSizes)
    ∧ (me.ksize = other.ksize → me.hash_function ≠ other.hash_function →
        check_compatible_downsample me other = .error .MismatchDNAProt)
    ∧ (me.ksize = other.ksize → me.hash_function = other.hash_function →
        me.max_hash < other.max_hash →
        check_compatible_downsample me other = .error .MismatchScaled)
    ∧ (me.ksize = other.ksize → me.hash_function = other.hash_function →
        other.max_hash ≤ me.max_hash → me.seed ≠ other.seed →
        check_compatible_downsample me other = .error .MismatchSeed)
    ∧ (me.max_hash < other.max_hash →
        check_compatible_downsample me other ≠ .ok ()) := by
  refine ⟨ccd_ok_iff, ?_, ?_, ?_, ?_, ?_⟩
  · intro h
    unfold check_compatible_downsample
    split_ifs <;> simp_all
  · intro h1 h2
    unfold check_compatible_downsample
    split_ifs <;> simp_all
  · intro h1 h2 h3
    unfold check_compatible_downsample
    split_ifs <;> simp_all
  · intro h1 h2 h3 h4
    unfold check_compatible_downsample
    split_ifs <;> simp_all [not_lt] <;> omega
  · intro hlt hok
    exact absurd (ccd_ok_iff.mp hok).2.2.2 (not_le.mpr hlt)

/-- Witness for C5 at a concrete input: a candidate coarser than the
template (`max_hash` 5 against template `max_hash` 10) is rejected with
`MismatchScaled`. -/
theorem check_compatible_downsample_spec_witness :
    template5.ksize = template10.ksize
    ∧ template5.hash_function = template10.hash_function
    ∧ template5.max_hash < template10.max_hash
    ∧ check_compatible_downsample template5 template10 = .error .MismatchScaled :=
  ⟨rfl, rfl, by decide,
    (check_compatible_downsample_spec template5 template10).2.2.2.1 rfl rfl (by decide)⟩

/-- C6: normalization (`prepare_query`) first returns a sketch already at
the template's exact resolution if the signature has one; otherwise it
returns the first sketch passing the compatibility check, downsampled by
the pure filter keeping exactly the hashes `≤` the template's `max_hash`
(assuming the scaled/max-hash round trip is exact for the template, as it
is for every template built by the program); if no sketch qualifies it
returns `None`. -/
theorem prepare_query_spec (sig : Signature) (template : KmerMinHash)
    (hrt : max_hash_for_scaled template.scaled = template.max_hash) :
    (∀ mh, sig.select_sketch template = some mh →
      prepare_query sig template = .ok (some mh))
    ∧ (sig.select_sketch template = none →
        ∀ pre s post, sig.sketches = pre ++ s :: post →
          (∀ t ∈ pre, check_compatible_downsample t template ≠ .ok ()) →
          check_compatible_downsample s template = .ok () →
          prepare_query sig template =
            .ok (some { s with
                        max_hash := template.max_hash,
                        hashes := s.hashes.filter (fun x => x ≤ template.max_hash) }))
    ∧ (sig.select_sketch template = none →
        (∀ t ∈ sig.sketches, check_compatible_downsample t template ≠ .ok ()) →
        prepare_query sig template = .ok none) := by
  refine ⟨?_, ?_, ?_⟩
  · intro mh h
    unfold prepare_query
    rw [h]
  · intro hnone pre s post hsk hpre hs
    unfold prepare_query
    rw [hnone, hrt, hsk]
    exact firstDownsampled_found template pre s post hpre hs
  · intro hnone hall
    unfold prepare_query
    rw [hnone, hrt]
    exact firstDownsampled_none template template.max_hash sig.sketches hall

/-- Witness for C6 at a concrete input: candidate B's signature has no
sketch at the cutoff-5 template's exact resolution, its raw sketch is
compatible, and normalization returns it downsampled — the filter keeping
exactly the hashes `≤ 5` (dropping the hash 6). -/
theorem prepare_query_spec_witness :
    max_hash_for_scaled template5.scaled = template5.max_hash
    ∧ sigB.select_sketch template5 = none
    ∧ check_compatible_downsample bRaw template5 = .ok ()
    ∧ prepare_query sigB template5 =
        .ok (some { bRaw with
                    max_hash := template5.max_hash,
                    hashes := bRaw.hashes.filter (fun x => x ≤ template5.max_hash) }) :=
  ⟨by decide, by decide, by decide,
    (prepare_query_spec sigB template5 (by decide)).2.1 (by decide) [] bRaw [] rfl
      (by simp) (by decide)⟩

/-! ### The remaining claims -/

/-- The query sketch after Scenario A's first subtraction. -/
def qAfter : KmerMinHash :=
  { ksize := 31, hash_function := .murmur64DNA, seed := 42, max_hash := 5,
    hashes := {4, 5} }

/-- The single round of the one-candidate witness run. -/
def roundW : Round :=
  { rquery := qW, rheap := [prX], best := prX, rafter := { qW with hashes := ∅ } }

/-- C2: containment is monotone across rounds — the query's hash set only
shrinks (subtraction can only remove hashes), every candidate surviving a
recomputation descends from a candidate of the previous round with a
recomputed containment no larger than its stored one (which the loop keeps
accurate), and a candidate whose containment has reached 0 cannot reappear
in any recomputed heap for a query that shrank further. -/
theorem containment_monotone (q q2 : KmerMinHash) (hs : List PrefetchResult)
    (hsub : q2.hashes ⊆ q.hashes)
    (hinv : ∀ r ∈ hs, r.containment = (r.minhash.hashes ∩ q.hashes).card) :
    (∀ m qq : KmerMinHash, q.remove_from m = .ok qq → qq.hashes ⊆ q.hashes)
    ∧ (∀ r2 ∈ prefetch q2 hs, ∃ r ∈ hs, r2.name = r.name ∧ r2.minhash = r.minhash ∧
        r2.containment ≤ r.containment ∧ 0 < r2.containment)
    ∧ (∀ r ∈ hs, (r.minhash.hashes ∩ q.hashes).card = 0 →
        ∀ r2 ∈ prefetch q2 hs, r2.minhash.hashes ≠ r.minhash.hashes) := by
  refine ⟨?_, ?_, ?_⟩
  · intro m qq h
    have hq := (remove_from_ok_iff.mp h).2
    subst hq
    exact Finset.sdiff_subset
  · intro r2 h2
    obtain ⟨r, hr, hname, hmh, hcont, hpos⟩ := mem_prefetch_shape h2
    refine ⟨r, hr, hname, hmh, ?_, hpos⟩
    rw [hcont, hinv r hr, hmh]
    exact Finset.card_le_card (Finset.inter_subset_inter (Finset.Subset.refl _) hsub)
  · intro r hr hzero r2 h2 heq
    obtain ⟨r0, hr0, _, _, hcont, hpos⟩ := mem_prefetch_shape h2
    have hle : r2.containment ≤ (r.minhash.hashes ∩ q.hashes).card := by
      rw [hcont, heq]
      exact Finset.card_le_card (Finset.inter_subset_inter (Finset.Subset.refl _) hsub)
    rw [hzero] at hle
    omega

/-- Witness for C2 at Scenario A's first recomputation: query {1..5},
shrunk query {4,5}, candidates A (containment 3) and B (containment 3). -/
theorem containment_monotone_witness :
    qAfter.hashes ⊆ qA5.hashes
    ∧ (∀ r ∈ [prA3, prB3], r.containment = (r.minhash.hashes ∩ qA5.hashes).card)
    ∧ ((∀ m qq : KmerMinHash, qA5.remove_from m = .ok qq → qq.hashes ⊆ qA5.hashes)
      ∧ (∀ r2 ∈ prefetch qAfter [prA3, prB3], ∃ r ∈ [prA3, prB3], r2.name = r.name ∧
          r2.minhash = r.minhash ∧ r2.containment ≤ r.containment ∧ 0 < r2.containment)
      ∧ (∀ r ∈ [prA3, prB3], (r.minhash.hashes ∩ qA5.hashes).card = 0 →
          ∀ r2 ∈ prefetch qAfter [prA3, prB3], r2.minhash.hashes ≠ r.minhash.hashes)) :=
  ⟨by decide, by decide,
    containment_monotone qA5 qAfter [prA3, prB3] (by decide) (by decide)⟩

/-- Witness for C3 on a concrete one-candidate heap: the loop with fuel 1
reaches DONE in at most one round. -/
theorem gather_terminates_witness :
    [prX].length ≤ 1
    ∧ (∀ r ∈ [prX], qW.check_compatible r.minhash = .ok ())
    ∧ ∃ rounds lines, gatherGo 1 qW [prX] = .ok (rounds, lines) ∧
        rounds.length ≤ [prX].length :=
  ⟨by decide, by decide, gather_terminates 1 qW [prX] (by decide) (by decide)⟩

/-- Counterexample to C4 as stated: eviction of the selected candidate is
not unconditional — the recomputation keeps the previously selected
candidate whenever its recomputed containment is positive (first conjunct:
against the unshrunk query, candidate A survives `prefetch` unchanged),
and it disappears exactly when the subtraction has driven its recount to
zero (second conjunct).  The loop peeks without popping (src/main.rs:215),
so absence in later rounds is precisely a byproduct of the
zero-containment filter, not a separate unconditional removal. -/
theorem eviction_is_filter_byproduct :
    prA3 ∈ prefetch qA5 [prA3]
    ∧ (qA5.remove_from prA3.minhash).map (fun q2 => prefetch q2 [prA3]) = .ok [] :=
  ⟨by decide, by decide⟩

/-- Witness-grade concrete instance of the C8 line theorem: the
one-candidate run prints exactly the progress line and the result line of
its single round, whose selected candidate is the heap root. -/
theorem gather_output_lines_witness :
    gatherGo 1 qW [prX] = .ok ([roundW], ["remaining: 1 1", "removing X"])
    ∧ (["remaining: 1 1", "removing X"] = [roundW].flatMap roundLines
        ∧ ∀ R ∈ [roundW], R.rheap.head? = some R.best) :=
  ⟨by decide,
    gather_output_lines 1 qW [prX] [roundW] ["remaining: 1 1", "removing X"] (by decide)⟩

/-- Counterexample to C8 as stated: the per-round result line is
`removing {name}` — it does not carry the containment and is not of the
form `{name} - {containment}` (for Scenario A's first round that form
would be "A - 3"). -/
theorem result_line_lacks_containment :
    runLines runA = ["remaining: 5 2", "removing A", "remaining: 2 1", "removing B"]
    ∧ (runLines runA).get? 1 = some ("removing " ++ "A")
    ∧ "removing A" ≠ "A - 3" :=
  ⟨by decide, by decide, by decide⟩

/-- Counterexample to C1 as stated: with a template whose `max_hash` admits
all values up to 10, the hash 6 of candidate B is NOT removed by
downsampling (downsampling keeps exactly the hashes `≤ 10`, and 6 `≤ 10`),
and in the full run at that cutoff the round-1 candidate heap holds B with
containment 3 — not 2 — and with 6 still in its sketch. -/
theorem scenario_a_six_not_removed :
    (bRaw.downsample_max_hash 10).map (fun mh => decide (6 ∈ mh.hashes)) = .ok true
    ∧ (runRounds runA10).head?.map
        (fun R => R.rheap.map (fun p => (p.name, p.containment, decide (6 ∈ p.minhash.hashes))))
        = some [("A", 3, false), ("B", 3, true)] :=
  ⟨by decide, by decide⟩

/-- C1 (amended): Scenario A with a template `max_hash` of 5 (admitting
values up to 5, so that 6 is actually removed by downsampling): the engine
selects A with containment 3 in round 1 (B ties at 3 and the heap keeps
the earlier-loaded A at the root), leaving query {4,5}; round 2 selects B
with recomputed containment 2, leaving the query empty; the result
sequence is exactly [("A",3), ("B",2)], and B's normalized sketch is
{3,4,5}. -/
theorem scenario_a_amended :
    gatherResults (runRounds runA) = [("A", 3), ("B", 2)]
    ∧ (runRounds runA).map (fun R => R.rquery.hashes) = [{1, 2, 3, 4, 5}, {4, 5}]
    ∧ (runRounds runA).map (fun R => R.rafter.hashes) = [{4, 5}, ∅]
    ∧ (runRounds runA).head?.map (fun R => R.rheap.map (fun p => (p.name, p.containment)))
        = some [("A", 3), ("B", 3)] :=
  ⟨by decide, by decide, by decide, by decide⟩

/-- Counterexample to C7 as stated: a matchlist whose second entry is
unreadable makes the whole run abort with the candidate loader's panic
(`Signature::from_path(m).unwrap()`), instead of skipping that entry and
completing with the remaining valid entries. -/
theorem unreadable_candidate_aborts_run :
    do_countergather template5 (some [sigQA]) (some [some [sigA], none, some [sigB]])
      = .error .unwrapFailed :=
  by decide

/-- C7 (amended): there is no per-candidate recovery — a run that loads its
matchlist successfully had no unreadable candidate entry at all (an
unreadable entry always aborts the load), and an unreadable matchlist
file is fatal as well. -/
theorem candidate_failure_fatal (template q : KmerMinHash)
    (files : List (Option (List Signature))) (l : List PrefetchResult) :
    (loadMatchlist template q files = .ok l → (none : Option (List Signature)) ∉ files)
    ∧ (∀ (qf : Option (List Signature)) (r : List Round × List String),
        do_countergather template qf none ≠ .ok r) := by
  constructor
  · induction files generalizing l with
    | nil =>
      intro _ hmem
      exact absurd hmem (by simp)
    | cons f rest ih =>
      intro h hmem
      rw [loadMatchlist] at h
      cases he : loadEntry template q f with
      | error e =>
        rw [he] at h
        exact absurd h (by simp)
      | ok o =>
        rw [he] at h
        have hf : f ≠ none := by
          intro hf
          subst hf
          exact absurd he (by simp [loadEntry])
        rcases List.mem_cons.mp hmem with heq | hmem2
        · exact hf heq.symm
        · cases o with
          | none => exact ih l h hmem2
          | some r0 =>
            dsimp only at h
            cases hrest : loadMatchlist template q rest with
            | error e =>
              rw [hrest] at h
              exact absurd h (by simp)
            | ok l2 =>
              rw [hrest] at h
              exact ih l2 hrest hmem2
  · intro qf r h
    unfold do_countergather at h
    cases qf with
    | none => exact absurd h (by simp)
    | some qsigs =>
      dsimp only at h
      cases hq : queryScanAux template none qsigs with
      | error e =>
        rw [hq] at h
        exact absurd h (by simp)
      | ok o =>
        rw [hq] at h
        cases o with
        | none => exact absurd h (by simp)
        | some query => exact absurd h (by simp)

/-- Witness for C7 (amended) at concrete inputs: the successful Scenario A
load has no unreadable entry, and a run whose matchlist file cannot be
opened does not succeed. -/
theorem candidate_failure_fatal_witness :
    loadMatchlist template5 qA5 [some [sigA], some [sigB]] = .ok [prA3, prB3]
    ∧ (none : Option (List Signature)) ∉ [some [sigA], some [sigB]]
    ∧ do_countergather template5 (some [sigQA]) none ≠ .ok ([], []) :=
  ⟨by decide,
    (candidate_failure_fatal template5 qA5 [some [sigA], some [sigB]] [prA3, prB3]).1
      (by decide),
    (candidate_failure_fatal template5 qA5 [some [sigA], some [sigB]] [prA3, prB3]).2
      (some [sigQA]) ([], [])⟩

/-- Counterexample to C9 as stated: in the tie-break scenario the
candidates load in order N1 (containment 1), N2 (3), N3 (3); the earliest
loaded candidate with the maximum containment 3 is N2, but the engine
selects N3 — the root of the `BinaryHeap` after heapify — so ties are
broken by the container's internal order, not by earliest load order. -/
theorem tie_break_not_earliest_load_order :
    loadMatchlist template10 q9 tieEntries = .ok [prN1, prN2, prN3]
    ∧ (([prN1, prN2, prN3].filter (fun p => p.containment == 3)).head?).map
        PrefetchResult.name = some "N2"
    ∧ (gatherResults (runRounds runTie)).head? = some ("N3", 3) :=
  ⟨by decide, by decide, by decide⟩

/-- C9 (amended): selection is deterministic in the model (heap
construction is a pure permutation of the loaded candidates — nothing is
dropped or invented — and the whole run is a function of its input), but
ties among maximum-containment candidates are resolved by the
`BinaryHeap`'s internal array order after heapify, not by earliest load
order: in the tie-break run the selections are N3, N2, N1, with the
round-1 backing array [N3, N2, N1]. -/
theorem selection_by_heap_internal_order :
    (∀ l : List PrefetchResult, (heapify l).Perm l)
    ∧ gatherResults (runRounds runTie) = [("N3", 3), ("N2", 3), ("N1", 1)]
    ∧ (runRounds runTie).head?.map (fun R => R.rheap.map (fun p => p.name))
        = some ["N3", "N2", "N1"] :=
  ⟨heapify_perm, by decide, by decide⟩

/-- Counterexample to C10 as stated: on the same two-signature file, query
loading keeps the LAST usable sketch (S2's {2,3}) while matchlist-entry
loading keeps the FIRST positive-containment signature (S1) — the two
load paths do not apply the same selection rule. -/
theorem multi_signature_policy_disagrees :
    queryScanAux template10 none [sigS1, sigS2] = .ok (some mhS2)
    ∧ entryScan template10 q10 [sigS1, sigS2] =
        .ok (some { name := "S1", minhash := mhS1, containment := 2 })
    ∧ mhS1 ≠ mhS2 :=
  ⟨by decide, by decide, by decide⟩

/-- C10 (amended): the two load paths follow different fixed policies —
the query scan overwrites its choice on every usable signature, so a
usable signature appended at the end always wins (last match wins), while
the matchlist-entry scan stops at the first signature with a positive
containment (first match wins). -/
theorem multi_signature_selection_policies (template q : KmerMinHash) :
    (∀ (sigs : List Signature) (s : Signature) (mh : KmerMinHash) (mm : Option KmerMinHash),
        prepare_query s template = .ok (some mh) →
        (∀ g ∈ sigs, (prepare_query g template).isOk = true) →
        queryScanAux template mm (sigs ++ [s]) = .ok (some mh))
    ∧ (∀ (s : Signature) (rest : List Signature) (mh : KmerMinHash) (c : ℕ),
        prepare_query s template = .ok (some mh) →
        mh.count_common q = .ok c → 0 < c →
        entryScan template q (s :: rest) =
          .ok (some { name := s.name, minhash := mh, containment := c })) := by
  constructor
  · intro sigs
    induction sigs with
    | nil =>
      intro s mh mm hs _
      rw [List.nil_append, queryScanAux, hs]
      rfl
    | cons g rest ih =>
      intro s mh mm hs hok
      have hg := hok g (by simp)
      cases hpg : prepare_query g template with
      | error e =>
        rw [hpg] at hg
        exact absurd hg (by simp [Except.isOk, Except.toBool])
      | ok o =>
        rw [List.cons_append, queryScanAux, hpg]
        cases o with
        | some mh2 =>
          dsimp only
          exact ih s mh (some mh2) hs (fun g2 hg2 => hok g2 (by simp [hg2]))
        | none =>
          dsimp only
          exact ih s mh mm hs (fun g2 hg2 => hok g2 (by simp [hg2]))
  · intro s rest mh c hs hcc hc
    rw [entryScan, hs]
    dsimp only
    rw [hcc]
    dsimp only
    rw [if_pos hc]

/-- Witness for C10 (amended) on the two-signature file: appending S2 after
S1 makes the query scan return S2's sketch, while the entry scan on
S1 :: [S2] returns S1's candidate. -/
theorem multi_signature_selection_policies_witness :
    prepare_query sigS2 template10 = .ok (some mhS2)
    ∧ (∀ g ∈ [sigS1], (prepare_query g template10).isOk = true)
    ∧ prepare_query sigS1 template10 = .ok (some mhS1)
    ∧ mhS1.count_common q10 = .ok 2
    ∧ 0 < 2
    ∧ queryScanAux template10 none ([sigS1] ++ [sigS2]) = .ok (some mhS2)
    ∧ entryScan template10 q10 (sigS1 :: [sigS2]) =
        .ok (some { name := sigS1.name, minhash := mhS1, containment := 2 }) :=
  ⟨by decide, by decide, by decide, by decide, by decide,
    (multi_signature_selection_policies template10 q10).1 [sigS1] sigS2 mhS2 none
      (by decide) (by decide),
    (multi_signature_selection_policies template10 q10).2 sigS1 [sigS2] mhS1 2
      (by decide) (by decide) (by decide)⟩

end Countergather
